import Mathlib

/-!
Verification of the Tabular Data Insight Engine (Business_Intelligence,
python-service).  The Python source is shallowly embedded: DataFrames become
an explicit `Frame` (ordered list of typed columns), Python floats become
exact rationals, fallible paths become explicit result types.  String
rendering of insight/forecast sentences is abstracted to tagged data
carrying the same numeric payload the rendered text would carry.
-/

/-! ## services/database.py — validate_sql -/

/-- Word characters as in the regex escape class used by the validator
(letters, digits, underscore; the source text is ASCII SQL). -/
def isWordChar (c : Char) : Bool := c.isAlphanum || c == '_'

/-- One position of the regex word-boundary search: the keyword matches here
when it is a leading sublist of `s`, the previous character (if any) is not a
word character, and the character following the matched span (if any) is not
a word character.  Mirrors a search for the keyword between two boundaries. -/
def matchHere (kw : List Char) (prev : Option Char) (s : List Char) : Bool :=
  kw.isPrefixOf s
    && (match prev with | none => true | some c => !isWordChar c)
    && (match s.drop kw.length with | [] => true | c :: _ => !isWordChar c)

/-- Scan every position of `s` (tracking the preceding character) for a
word-boundary-delimited occurrence of `kw`. -/
def occursWBAux (kw : List Char) : Option Char → List Char → Bool
  | prev, [] => matchHere kw prev []
  | prev, c :: rest => matchHere kw prev (c :: rest) || occursWBAux kw (some c) rest

/-- `re.search(rf"\b{keyword}\b", s)` of database.py for an alphabetic keyword:
the keyword occurs in `s` delimited by word boundaries. -/
def occursWB (kw : List Char) (s : List Char) : Bool := occursWBAux kw none s

/-- `sql.strip().upper()` of database.py line 84. -/
def normalizeSql (s : String) : List Char :=
  (((s.data.dropWhile Char.isWhitespace).reverse.dropWhile Char.isWhitespace).reverse).map
    Char.toUpper

/-- database.py line 87. -/
def dangerousKeywords : List (List Char) :=
  ["DROP", "DELETE", "UPDATE", "INSERT", "ALTER", "CREATE", "TRUNCATE", "EXEC",
   "EXECUTE"].map String.data

/-- database.py `validate_sql`: block word-boundary occurrences of the
dangerous keywords in the stripped upper-cased text, then require a SELECT or
WITH start. -/
def validate_sql (s : String) : Bool :=
  let su := normalizeSql s
  if dangerousKeywords.any (fun kw => occursWB kw su) then false
  else "SELECT".data.isPrefixOf su || "WITH".data.isPrefixOf su

theorem validate_sql_characterization (s : String) :
    validate_sql s =
      (("SELECT".data.isPrefixOf (normalizeSql s) || "WITH".data.isPrefixOf (normalizeSql s))
        && !(dangerousKeywords.any fun kw => occursWB kw (normalizeSql s))) := by
  unfold validate_sql
  cases h : dangerousKeywords.any (fun kw => occursWB kw (normalizeSql s)) <;> simp [h]

/-- C1: validate_sql returns safe exactly when the trimmed, upper-cased query
begins with SELECT or WITH and none of the nine dangerous tokens occurs as a
word-boundary-delimited token of the normalized text; in particular the
created_at identifier does not trigger CREATE, the piggy-backed DROP and the
UPDATE statement are rejected, and a WITH CTE query is accepted. -/
theorem c1_validate_sql_safety :
    (∀ s : String,
      validate_sql s =
        (("SELECT".data.isPrefixOf (normalizeSql s) || "WITH".data.isPrefixOf (normalizeSql s))
          && !(dangerousKeywords.any fun kw => occursWB kw (normalizeSql s))))
    ∧ validate_sql "SELECT * FROM data WHERE created_at > 5" = true
    ∧ validate_sql "select * from data; DROP TABLE data" = false
    ∧ validate_sql "UPDATE data SET x=1" = false
    ∧ validate_sql "WITH t AS (SELECT 1) SELECT * FROM t" = true := by
  refine ⟨validate_sql_characterization, ?_, ?_, ?_, ?_⟩ <;> decide

/-! ## Data model: a pandas DataFrame as an ordered list of typed columns.
A column is numeric (float/int dtype; cells are exact rationals, missing
cells are `none`) or text (object dtype).  Cleaned frames have one shared
row count; `numRows` takes the largest column length, which coincides with
the common length on every frame pandas builds. -/

inductive ColData
  | numeric : List (Option ℚ) → ColData
  | text : List (Option String) → ColData
  deriving DecidableEq

structure Col where
  name : String
  data : ColData
  deriving DecidableEq

abbrev Frame := List Col

def colLen (c : Col) : ℕ :=
  match c.data with
  | .numeric vs => vs.length
  | .text vs => vs.length

def numRows (f : Frame) : ℕ := f.foldr (fun c m => max (colLen c) m) 0

def isNumericCol (c : Col) : Bool :=
  match c.data with
  | .numeric _ => true
  | .text _ => false

/-- `df.select_dtypes(include="number").columns.tolist()`. -/
def numericCols (f : Frame) : List String := (f.filter isNumericCol).map Col.name

/-- `[c for c in cols if c not in num_cols]` (column names are distinct in a
cleaned frame, so name membership agrees with dtype). -/
def nonNumericCols (f : Frame) : List String :=
  (f.filter (fun c => !isNumericCol c)).map Col.name

def colNames (f : Frame) : List String := f.map Col.name

/-- Rendering of a numeric cell as text (`astype(str)`).  Integral values
render as their integer digits (pandas int64 columns); non-integral values
render as digits separated by a decimal point, which is what the date-pattern
matchers below can observe of a Python float rendering. -/
def numToStr (q : ℚ) : String :=
  if q.den = 1 then toString q.num else toString q.num ++ "." ++ toString q.den

/-- `df[col].astype(str)`: every cell as text, missing cells included
(pandas renders a numeric NaN as "nan" and an object None as "None"). -/
def cellStrs (c : Col) : List String :=
  match c.data with
  | .numeric vs => vs.map (fun v => match v with | some q => numToStr q | none => "nan")
  | .text vs => vs.map (fun v => match v with | some s => s | none => "None")

/-- `df[col].dropna().astype(str)`: the non-missing cells as text. -/
def nonMissingStrs (c : Col) : List String :=
  match c.data with
  | .numeric vs => (vs.filterMap id).map numToStr
  | .text vs => vs.filterMap id

/-! ## Date-pattern matchers (`re.match`, so anchored at the start only) -/

def takeDigits : ℕ → List Char → Option (List Char)
  | 0, s => some s
  | _ + 1, [] => none
  | n + 1, c :: s => if c.isDigit then takeDigits n s else none

def takeSep : List Char → Option (List Char)
  | [] => none
  | c :: s => if c = '-' || c = '/' then some s else none

/-- prediction.py pattern: 4 digits, separator (dash or slash), 2 digits,
separator, 2 digits, as a prefix match. -/
def matchYMD (s : List Char) : Bool :=
  (takeDigits 4 s >>= takeSep >>= takeDigits 2 >>= takeSep >>= takeDigits 2).isSome

/-- prediction.py pattern: 2 digits, separator, 2 digits, separator, 4
digits, as a prefix match. -/
def matchDMY (s : List Char) : Bool :=
  (takeDigits 2 s >>= takeSep >>= takeDigits 2 >>= takeSep >>= takeDigits 4).isSome

/-- pattern: 4 digits, separator, 2 digits, as a prefix match. -/
def matchYM (s : List Char) : Bool :=
  (takeDigits 4 s >>= takeSep >>= takeDigits 2).isSome

/-- pattern `^\d{4}$`: exactly a 4-digit year. -/
def matchYearFull (s : List Char) : Bool := takeDigits 4 s == some []

/-- A value matching one of the four date patterns of prediction.py. -/
def isDateLike (s : String) : Bool :=
  matchYMD s.data || matchDMY s.data || matchYM s.data || matchYearFull s.data

def monthPrefixes : List String :=
  ["jan", "feb", "mar", "apr", "may", "jun", "jul", "aug", "sep", "oct", "nov", "dec"]

/-- charts.py pattern `(?i)^(jan|feb|...)`: case-insensitive month-name start. -/
def matchMonthName (s : String) : Bool :=
  monthPrefixes.any (fun m => m.data.isPrefixOf (s.data.map Char.toLower))

/-- One of the three fallback time patterns of charts.py lines 41-45. -/
def chartTimePattern (s : String) : Bool :=
  matchYearFull s.data || matchYM s.data || matchMonthName s

/-- Modelled from the spec: the flexible date/time parse is the external
pandas routine `pd.to_datetime(values, format="mixed")`, outside this
repository; per the spec it succeeds when the whole column parses as
dates.  Modelled as: every value matches one of the four explicit date-like
patterns.  Every claim below only exercises this on clearly non-date text,
where the parse raises and the model returns false. -/
def flexibleParseOk (xs : List String) : Bool := xs.all isDateLike

/-! ## services/charts.py -/

/-- charts.py `detect_chart_type`. -/
def detect_chart_type (f : Frame) : String :=
  if numRows f = 0 ∨ f.length = 0 then "bar"
  else if f.length = 1 ∧ (numericCols f).length = 1 then "histogram"
  else if 2 ≤ f.length then
    let xvals := cellStrs (f.headD ⟨"", .text []⟩)
    let is_time := flexibleParseOk xvals || (xvals.take 3).all chartTimePattern
    if is_time then "line"
    else if numRows f ≤ 6 ∧ 1 ≤ (numericCols f).length ∧ 1 ≤ (nonNumericCols f).length then
      "pie"
    else if 15 < numRows f then "line"
    else "bar"
  else "bar"

/-- The resolved column roles of a multi-series line/bar chart (`ChartSpec`
without the rendering payload, which is external). -/
structure LineBarSpec where
  x : String
  series : List String
  deriving DecidableEq

/-- charts.py lines 113-126, the line branch of `generate_chart`, abstracted
to its resolved roles.  Line 115 of the source reads
`y_cols = num_cols if cols[0] not in num_cols else num_cols`; it is embedded
verbatim (both arms are the full numeric column list).  The trace loop reads
`for i, y_col in enumerate(y_cols[:5])`, hence `take 5`. -/
def lineSpecOf (f : Frame) : Option LineBarSpec :=
  if 2 ≤ f.length ∧ 1 ≤ (numericCols f).length then
    let y_cols :=
      if (colNames f).headD "" ∉ numericCols f then numericCols f else numericCols f
    some ⟨(colNames f).headD "", y_cols.take 5⟩
  else none

/-- charts.py lines 135-150, the default bar branch of `generate_chart`:
`y_cols = num_cols if num_cols else [cols[1]]`, then the first 5 series. -/
def barSpecOf (f : Frame) : Option LineBarSpec :=
  if 2 ≤ f.length then
    let y_cols := if numericCols f ≠ [] then numericCols f else [(colNames f).getD 1 ""]
    some ⟨(colNames f).headD "", y_cols.take 5⟩
  else none

/-- A 20-row two-column frame: a non-temporal text column and a numeric one. -/
def fCat20 : Frame :=
  [⟨"label", .text ((List.range 20).map (fun i => some ("c" ++ toString i)))⟩,
   ⟨"amount", .numeric ((List.range 20).map (fun i => some ((i : ℚ) + 1)))⟩]

/-- A single numeric column. -/
def fHist : Frame := [⟨"v", .numeric [some 1, some 2, some 3]⟩]

/-- A 5-row (category, numeric) frame. -/
def fPie : Frame :=
  [⟨"region", .text [some "alpha", some "beta", some "gamma", some "delta", some "eps"]⟩,
   ⟨"sales", .numeric [some 10, some 20, some 30, some 40, some 50]⟩]

/-- C2 counterexample: on the 20-row two-column (non-temporal text, numeric)
frame the selector returns "line" — the row count exceeds 15, so the
large-row-count line rule fires — not "bar" as claimed. -/
theorem c2_twenty_rows_is_line_not_bar :
    detect_chart_type fCat20 = "line" ∧ detect_chart_type fCat20 ≠ "bar" := by
  constructor <;> decide

/-- C2 (amended): the 20-row two-column (non-temporal text, numeric) frame
selects "line" (row count > 15); a single numeric column selects
"histogram"; the 5-row (category, numeric) frame selects "pie". -/
theorem c2_chart_type_examples :
    detect_chart_type fCat20 = "line"
    ∧ detect_chart_type fHist = "histogram"
    ∧ detect_chart_type fPie = "pie" := by
  refine ⟨?_, ?_, ?_⟩ <;> decide

/-- Two numeric columns; the x column is itself numeric. -/
def fNumNum : Frame :=
  [⟨"x", .numeric [some 1, some 2]⟩, ⟨"y", .numeric [some 3, some 4]⟩]

/-- C7: on a frame whose first column is numeric, both the line and the bar
role resolution keep the x column among the y-series (the source line
`y_cols = num_cols if cols[0] not in num_cols else num_cols` has two equal
arms, so the intended exclusion of a numeric x never happens). -/
theorem c7_series_keeps_numeric_x :
    lineSpecOf fNumNum = some ⟨"x", ["x", "y"]⟩
    ∧ barSpecOf fNumNum = some ⟨"x", ["x", "y"]⟩ := by
  constructor <;> decide

/-! ## services/analysis.py -/

def qavg (l : List ℚ) : ℚ := l.sum / l.length

/-- Python `round(x, 2)`: nearest-integer rounding of 100x (the float
banker's tie rule differs only at exact half-cent ties, which no value
below reaches). -/
def round2 (x : ℚ) : ℚ := ((round (100 * x) : ℤ) : ℚ) / 100

/-- Python `round(x, 4)`. -/
def round4 (x : ℚ) : ℚ := ((round (10000 * x) : ℤ) : ℚ) / 10000

def minQ : List ℚ → ℚ
  | [] => 0
  | x :: xs => xs.foldl min x

def maxQ : List ℚ → ℚ
  | [] => 0
  | x :: xs => xs.foldl max x

/-- pandas `Series.median()`: the middle element of the sorted values, or
the mean of the two middle elements for an even count. -/
def medianQ (l : List ℚ) : ℚ :=
  if (l.insertionSort (· ≤ ·)).length % 2 = 1 then
    (l.insertionSort (· ≤ ·)).getD ((l.insertionSort (· ≤ ·)).length / 2) 0
  else
    ((l.insertionSort (· ≤ ·)).getD ((l.insertionSort (· ≤ ·)).length / 2 - 1) 0
      + (l.insertionSort (· ≤ ·)).getD ((l.insertionSort (· ≤ ·)).length / 2) 0) / 2

/-- pandas `Series.std()` uses ddof = 1: this is that sample variance. -/
def svar (l : List ℚ) : ℚ :=
  (l.map (fun x => (x - qavg l) ^ 2)).sum / ((l.length : ℚ) - 1)

/-- The integer nearest to the square root of a nonnegative rational (ties
round up); lets the rounded standard deviation be evaluated exactly. -/
def sqrtNearest (x : ℚ) : ℕ :=
  let m := Nat.sqrt x.floor.toNat
  if 4 * x < (((2 * m + 1 : ℕ) : ℚ)) ^ 2 then m else m + 1

/-- `round(float(series.std()), 2)` for two or more values: the square root
of the sample variance, rounded to 2 decimal places (computed exactly). -/
def std2dp (v : ℚ) : ℚ := ((sqrtNearest (10000 * v) : ℕ) : ℚ) / 100

structure ColStats where
  mean : ℚ
  median : ℚ
  std : ℚ
  min : ℚ
  max : ℚ
  count : ℕ
  deriving DecidableEq

/-- The stats record of one column (analysis.py lines 25-32): all rounded to
2 decimals, std forced to 0 for fewer than 2 values. -/
def mkStats (xs : List ℚ) : ColStats :=
  { mean := round2 (qavg xs)
    median := round2 (medianQ xs)
    std := if 1 < xs.length then std2dp (svar xs) else 0
    min := round2 (minQ xs)
    max := round2 (maxQ xs)
    count := xs.length }

/-- analysis.py `compute_stats`: per numeric column, drop missing values,
skip the column when nothing remains, else the rounded summary record. -/
def compute_stats (f : Frame) : List (String × ColStats) :=
  f.filterMap (fun c =>
    match c.data with
    | .numeric vs =>
        let xs := vs.filterMap id
        if xs.isEmpty then none else some (c.name, mkStats xs)
    | .text _ => none)

/-- A trend note, abstracted to its direction and reported percentage. -/
inductive Trend
  | upward (pct : ℚ)
  | downward (pct : ℚ)
  | stable
  deriving DecidableEq

/-- First-half mean: `series.iloc[:mid].mean()` with `mid = len(series) // 2`. -/
def fhMean (xs : List ℚ) : ℚ := qavg (xs.take (xs.length / 2))

/-- Second-half mean: `series.iloc[mid:].mean()`. -/
def shMean (xs : List ℚ) : ℚ := qavg (xs.drop (xs.length / 2))

/-- analysis.py lines 52-62: compare the half means.  Neither percentage
branch guards the division by the first-half mean; in rational arithmetic a
division by zero is 0 here, where the Python float division of a nonzero
value by a zero mean yields an infinite percentage. -/
def trendOf (xs : List ℚ) : Trend :=
  if fhMean xs * (11 / 10) < shMean xs then .upward ((shMean xs / fhMean xs - 1) * 100)
  else if shMean xs < fhMean xs * (9 / 10) then .downward ((1 - shMean xs / fhMean xs) * 100)
  else .stable

/-- analysis.py `detect_trends`: numeric columns with at least 3 non-missing
values, in column order. -/
def detect_trends (f : Frame) : List (String × Trend) :=
  f.filterMap (fun c =>
    match c.data with
    | .numeric vs =>
        let xs := vs.filterMap id
        if xs.length < 3 then none else some (c.name, trendOf xs)
    | .text _ => none)

inductive Trend3
  | upward
  | downward
  | stable
  deriving DecidableEq

/-- An insight sentence, abstracted to its tag and the numeric payload the
rendered English text carries. -/
inductive Insight
  | topContributor (cat top : String) (pct : ℚ)
  | range (col : String) (lo hi : ℚ)
  | trendNote (col : String) (t : Trend)
  | rowCount (rows cols : ℕ)
  | forecast (value conf : ℚ) (dir : Trend3) (target : String)
  deriving DecidableEq

def firstNonNumericCol (f : Frame) : Option Col := f.find? (fun c => !isNumericCol c)

def firstNumericCol (f : Frame) : Option Col := f.find? isNumericCol

def textVals (c : Col) : List (Option String) :=
  match c.data with
  | .text vs => vs
  | .numeric _ => []

def numVals (c : Col) : List (Option ℚ) :=
  match c.data with
  | .numeric vs => vs
  | .text _ => []

/-- Distinct non-missing group keys in first-occurrence order (pandas
groupby drops rows whose key is missing). -/
def groupKeys (ks : List (Option String)) : List String :=
  (ks.filterMap id).foldl (fun acc k => if k ∈ acc then acc else acc ++ [k]) []

/-- `df.groupby(cat)[num].sum()` at one key: missing values are skipped and
an all-missing group sums to 0, as pandas sum does. -/
def groupSum (ps : List (Option String × Option ℚ)) (k : String) : ℚ :=
  ((ps.filter (fun p => p.1 = some k)).filterMap Prod.snd).sum

/-- The key with the largest group sum (`sort_values(ascending=False)` then
the first row; the tie order of the unstable pandas sort is abstracted to
first occurrence). -/
def topKey (ps : List (Option String × Option ℚ)) : String :=
  match groupKeys (ps.map Prod.fst) with
  | [] => ""
  | k :: ks =>
      ks.foldl (fun best k2 => if groupSum ps best < groupSum ps k2 then k2 else best) k

/-- analysis.py lines 84-99, insight 1: group the first numeric column by
the first non-numeric column; with at least two groups report the top group
and its share of the total (0 when the total is not positive). -/
def topContributorInsight (f : Frame) : List Insight :=
  match firstNonNumericCol f, firstNumericCol f with
  | some cat, some num =>
      let ps := (textVals cat).zip (numVals num)
      let keys := groupKeys (ps.map Prod.fst)
      if 1 < keys.length then
        let total := (keys.map (groupSum ps)).sum
        let pct := if 0 < total then groupSum ps (topKey ps) / total * 100 else 0
        [.topContributor cat.name (topKey ps) pct]
      else []
  | _, _ => []

/-- analysis.py lines 102-108, insight 2: one range sentence for the first
stats entry (every entry carries a min and a max). -/
def rangeInsight (stats : List (String × ColStats)) : List Insight :=
  match stats with
  | [] => []
  | (n, st) :: _ => [.range n st.min st.max]

/-- analysis.py `generate_insights`: an empty frame short-circuits to an
empty list; otherwise the applicable insights in fixed order with the
row/column count insight appended last (at most two trend notes). -/
def generate_insights (f : Frame) (stats : List (String × ColStats)) : List Insight :=
  if numRows f = 0 ∨ f.length = 0 then []
  else
    (topContributorInsight f ++ rangeInsight stats
        ++ ((detect_trends f).take 2).map (fun p => Insight.trendNote p.1 p.2))
      ++ [Insight.rowCount (numRows f) f.length]

/-! ## Theorems about analysis.py -/

lemma roundMono {x y : ℚ} (h : x ≤ y) : round x ≤ round y := by
  rw [round_eq, round_eq]
  exact Int.floor_mono (by linarith)

lemma round2_mono {x y : ℚ} (h : x ≤ y) : round2 x ≤ round2 y := by
  unfold round2
  have h2 : round (100 * x) ≤ round (100 * y) := roundMono (by linarith)
  have h3 : ((round (100 * x) : ℤ) : ℚ) ≤ ((round (100 * y) : ℤ) : ℚ) := by exact_mod_cast h2
  linarith

lemma foldl_min_le (a : ℚ) (l : List ℚ) : l.foldl min a ≤ a := by
  induction l generalizing a with
  | nil => simp
  | cons b t ih => exact le_trans (ih (min a b)) (min_le_left a b)

lemma foldl_min_le_mem (a : ℚ) {x : ℚ} {l : List ℚ} (hx : x ∈ l) : l.foldl min a ≤ x := by
  induction l generalizing a with
  | nil => cases hx
  | cons b t ih =>
      rcases List.mem_cons.mp hx with h | h
      · subst h
        exact le_trans (foldl_min_le (min a x) t) (min_le_right a x)
      · exact ih (min a b) h

lemma minQ_le_of_mem {x : ℚ} {l : List ℚ} (hx : x ∈ l) : minQ l ≤ x := by
  cases l with
  | nil => cases hx
  | cons b t =>
      rcases List.mem_cons.mp hx with h | h
      · subst h
        exact foldl_min_le x t
      · exact foldl_min_le_mem b h

lemma le_foldl_max (a : ℚ) (l : List ℚ) : a ≤ l.foldl max a := by
  induction l generalizing a with
  | nil => simp
  | cons b t ih => exact le_trans (le_max_left a b) (ih (max a b))

lemma mem_le_foldl_max (a : ℚ) {x : ℚ} {l : List ℚ} (hx : x ∈ l) : x ≤ l.foldl max a := by
  induction l generalizing a with
  | nil => cases hx
  | cons b t ih =>
      rcases List.mem_cons.mp hx with h | h
      · subst h
        exact le_trans (le_max_right a x) (le_foldl_max (max a x) t)
      · exact ih (max a b) h

lemma le_maxQ_of_mem {x : ℚ} {l : List ℚ} (hx : x ∈ l) : x ≤ maxQ l := by
  cases l with
  | nil => cases hx
  | cons b t =>
      rcases List.mem_cons.mp hx with h | h
      · subst h
        exact le_foldl_max x t
      · exact mem_le_foldl_max b h

lemma getD_mem_of_lt (l : List ℚ) (i : ℕ) (h : i < l.length) : l.getD i 0 ∈ l := by
  induction l generalizing i with
  | nil => simp at h
  | cons b t ih =>
      cases i with
      | zero => simp
      | succ j =>
          simp only [List.getD_cons_succ]
          exact List.mem_cons_of_mem b (ih j (by simpa using h))

lemma medianQ_bounds {l : List ℚ} (hl : l ≠ []) :
    minQ l ≤ medianQ l ∧ medianQ l ≤ maxQ l := by
  have hperm : List.Perm (l.insertionSort (· ≤ ·)) l := List.perm_insertionSort _ l
  have hpos : 0 < (l.insertionSort (· ≤ ·)).length := by
    rw [hperm.length_eq]
    exact List.length_pos.mpr hl
  have hmem : ∀ i, i < (l.insertionSort (· ≤ ·)).length →
      minQ l ≤ (l.insertionSort (· ≤ ·)).getD i 0
        ∧ (l.insertionSort (· ≤ ·)).getD i 0 ≤ maxQ l := by
    intro i hi
    have hm : (l.insertionSort (· ≤ ·)).getD i 0 ∈ l :=
      hperm.mem_iff.mp (getD_mem_of_lt _ i hi)
    exact ⟨minQ_le_of_mem hm, le_maxQ_of_mem hm⟩
  unfold medianQ
  split
  · exact hmem _ (Nat.div_lt_self hpos (by norm_num))
  · have h2 := hmem ((l.insertionSort (· ≤ ·)).length / 2)
      (Nat.div_lt_self hpos (by norm_num))
    have h1 := hmem ((l.insertionSort (· ≤ ·)).length / 2 - 1)
      (lt_of_le_of_lt (Nat.sub_le ((l.insertionSort (· ≤ ·)).length / 2) 1)
        (Nat.div_lt_self hpos (by norm_num)))
    constructor
    · have a1 := h1.1
      have a2 := h2.1
      linarith
    · have b1 := h1.2
      have b2 := h2.2
      linarith

/-- C9: every entry compute_stats keeps has at least one non-missing value,
satisfies min ≤ median ≤ max and std ≥ 0, its std is 0 for fewer than 2
values, and all five rational statistics are multiples of 1/100 (rounded to
2 decimal places). -/
theorem c9_compute_stats_bounds (f : Frame) (n : String) (st : ColStats)
    (h : (n, st) ∈ compute_stats f) :
    1 ≤ st.count
    ∧ st.min ≤ st.median
    ∧ st.median ≤ st.max
    ∧ 0 ≤ st.std
    ∧ (st.count < 2 → st.std = 0)
    ∧ (∃ a b c d e : ℤ, st.mean = (a : ℚ) / 100 ∧ st.median = (b : ℚ) / 100
        ∧ st.std = (c : ℚ) / 100 ∧ st.min = (d : ℚ) / 100 ∧ st.max = (e : ℚ) / 100) := by
  rcases List.mem_filterMap.mp h with ⟨c, hc, hsome⟩
  rcases c with ⟨cname, cdata⟩
  cases cdata with
  | text vs => simp at hsome
  | numeric vs =>
      by_cases hxs : (vs.filterMap id).isEmpty
      · simp [hxs] at hsome
      · simp only [hxs, Bool.false_eq_true, if_false, Option.some.injEq,
          Prod.mk.injEq] at hsome
        obtain ⟨hn, hst⟩ := hsome
        have hne : vs.filterMap id ≠ [] := by
          intro hcon
          rw [hcon] at hxs
          exact hxs rfl
        have hcnt : 1 ≤ (vs.filterMap id).length :=
          Nat.one_le_iff_ne_zero.mpr (fun hz => hne (List.length_eq_zero.mp hz))
        have hmed := medianQ_bounds hne
        subst hst
        refine ⟨hcnt, round2_mono hmed.1, round2_mono hmed.2, ?_, ?_, ?_⟩
        · show 0 ≤ (if 1 < (vs.filterMap id).length then std2dp (svar (vs.filterMap id)) else 0)
          split
          · unfold std2dp
            positivity
          · exact le_refl 0
        · intro hlt
          have hcount : (vs.filterMap id).length < 2 := hlt
          show (if 1 < (vs.filterMap id).length then std2dp (svar (vs.filterMap id)) else 0) = 0
          rw [if_neg]
          omega
        · refine ⟨round (100 * qavg (vs.filterMap id)),
            round (100 * medianQ (vs.filterMap id)),
            (if 1 < (vs.filterMap id).length
              then ((sqrtNearest (10000 * svar (vs.filterMap id)) : ℕ) : ℤ) else 0),
            round (100 * minQ (vs.filterMap id)),
            round (100 * maxQ (vs.filterMap id)), rfl, rfl, ?_, rfl, rfl⟩
          show (if 1 < (vs.filterMap id).length then std2dp (svar (vs.filterMap id)) else 0)
            = ((if 1 < (vs.filterMap id).length
                then ((sqrtNearest (10000 * svar (vs.filterMap id)) : ℕ) : ℤ) else 0 : ℤ) : ℚ)
              / 100
          split
          · unfold std2dp
            push_cast
            ring
          · norm_num

/-- One numeric column with one value: the smallest retained stats entry. -/
def fStat1 : Frame := [⟨"v", .numeric [some 2]⟩]

lemma fStat1_mem : ("v", ColStats.mk 2 2 0 2 2 1) ∈ compute_stats fStat1 := by
  norm_num [compute_stats, fStat1, mkStats, round2, round_eq, qavg, medianQ,
    List.insertionSort, List.orderedInsert, List.filterMap_cons, minQ, maxQ,
    reduceCtorEq]
  exact List.Mem.head _

/-- C9 witness: the bounds instantiated on a concrete one-value column. -/
theorem c9_witness :
    1 ≤ (ColStats.mk 2 2 0 2 2 1).count
    ∧ (ColStats.mk 2 2 0 2 2 1).min ≤ (ColStats.mk 2 2 0 2 2 1).median
    ∧ (ColStats.mk 2 2 0 2 2 1).median ≤ (ColStats.mk 2 2 0 2 2 1).max
    ∧ 0 ≤ (ColStats.mk 2 2 0 2 2 1).std
    ∧ ((ColStats.mk 2 2 0 2 2 1).count < 2 → (ColStats.mk 2 2 0 2 2 1).std = 0)
    ∧ (∃ a b c d e : ℤ, (ColStats.mk 2 2 0 2 2 1).mean = (a : ℚ) / 100
        ∧ (ColStats.mk 2 2 0 2 2 1).median = (b : ℚ) / 100
        ∧ (ColStats.mk 2 2 0 2 2 1).std = (c : ℚ) / 100
        ∧ (ColStats.mk 2 2 0 2 2 1).min = (d : ℚ) / 100
        ∧ (ColStats.mk 2 2 0 2 2 1).max = (e : ℚ) / 100) :=
  c9_compute_stats_bounds fStat1 "v" (ColStats.mk 2 2 0 2 2 1) fStat1_mem

/-- A one-column frame with no rows (an empty query result). -/
def fNoRows : Frame := [⟨"a", .numeric []⟩]

/-- C3 counterexample: on an empty (zero-row) table generate_insights
returns the empty list — no row/column count insight is emitted, so the
returned list is not always non-empty. -/
theorem c3_empty_frame_empty_insights :
    generate_insights fNoRows (compute_stats fNoRows) = [] := by decide

/-- C3 (amended): on every non-empty table (at least one row and one
column) the row/column count insight is the last element of the returned
list, which is in particular never empty. -/
theorem c3_rowcount_always_last (f : Frame) (stats : List (String × ColStats))
    (h1 : numRows f ≠ 0) (h2 : f.length ≠ 0) :
    (generate_insights f stats).getLast? = some (Insight.rowCount (numRows f) f.length)
    ∧ generate_insights f stats ≠ [] := by
  unfold generate_insights
  rw [if_neg (by push_neg; exact ⟨h1, h2⟩)]
  constructor
  · simp
  · simp

/-- A one-row one-column frame. -/
def fOneCell : Frame := [⟨"v", .numeric [some 1]⟩]

/-- C3 witness: the amended statement at a concrete one-cell table. -/
theorem c3_witness :
    (generate_insights fOneCell []).getLast?
        = some (Insight.rowCount (numRows fOneCell) (List.length fOneCell))
    ∧ generate_insights fOneCell [] ≠ [] :=
  c3_rowcount_always_last fOneCell [] (by decide) (by decide)

/-- The column of analysis.py detect_trends whose first-half mean is zero. -/
def fTrendZero : Frame := [⟨"m", .numeric [some 0, some 0, some 1]⟩]

/-- C4: for the numeric column [0, 0, 1] the first-half mean is 0, yet
detect_trends takes the upward-percentage branch (the second-half mean 1/2
exceeds 0 * 1.1), so the division by the zero first-half mean is performed
rather than the claimed "relatively stable" report.  The payload -100 is
the rational-arithmetic value of (1/2 / 0 - 1) * 100, whose zero division
Lean evaluates to 0 where numpy reports an infinite percentage. -/
theorem c4_zero_first_half_mean_divides :
    fhMean [(0 : ℚ), 0, 1] = 0
    ∧ detect_trends fTrendZero = [("m", Trend.upward (-100))] := by
  have hstruct : detect_trends fTrendZero = [("m", trendOf [0, 0, 1])] := rfl
  constructor
  · norm_num [fhMean, qavg, List.take]
  · rw [hstruct]
    norm_num [trendOf, fhMean, shMean, qavg, List.take, List.drop]

/-! ## services/prediction.py -/

/-- How many sampled values match one of the four date patterns
(prediction.py lines 29-32). -/
def dateMatchCount (sample : List String) : ℕ := (sample.filter isDateLike).length

/-- prediction.py lines 18-34: a column content-qualifies as the time column
when at least 70 percent of its first 10 non-missing values (as text) match
a date pattern.  `matches >= len(sample) * 0.7` is stated over integers as
`7 * len <= 10 * matches`, which agrees with the float comparison for every
sample length up to 10; an empty sample passes vacuously (0 >= 0). -/
def contentTimeMatch (c : Col) : Bool :=
  decide (7 * ((nonMissingStrs c).take 10).length
    ≤ 10 * dateMatchCount ((nonMissingStrs c).take 10))

def timeKeywords : List String :=
  ["date", "time", "year", "month", "day", "period", "quarter"]

/-- `needle in hay` for character lists (Python substring containment). -/
def containsSub : List Char → List Char → Bool
  | needle, [] => needle.isEmpty
  | needle, c :: rest => needle.isPrefixOf (c :: rest) || containsSub needle rest

/-- prediction.py lines 38-41: the lower-cased column name contains a
time-related keyword. -/
def nameTimeMatch (c : Col) : Bool :=
  timeKeywords.any (fun kw => containsSub kw.data (c.name.data.map Char.toLower))

/-- prediction.py `detect_time_column`: scan the columns in declared order
for a content match, then fall back to the name-keyword scan. -/
def detectTimeCol (f : Frame) : Option Col :=
  match f.find? contentTimeMatch with
  | some c => some c
  | none => f.find? nameTimeMatch

/-- The selected time column's name, as the Python function returns it. -/
def detect_time_column (f : Frame) : Option String := (detectTimeCol f).map Col.name

/-- prediction.py lines 54-58: the question mentions the column name with
underscores read as spaces, or the raw column name (both case-insensitive). -/
def targetNameMatch (c : Col) (question : String) : Bool :=
  containsSub ((c.name.data.map Char.toLower).map (fun ch => if ch = '_' then ' ' else ch))
      (question.data.map Char.toLower)
    || containsSub (c.name.data.map Char.toLower) (question.data.map Char.toLower)

/-- prediction.py `detect_target_column`: the first numeric column mentioned
in the question, else the first numeric column, else none. -/
def detectTargetCol (f : Frame) (question : String) : Option Col :=
  match (f.filter isNumericCol).find? (fun c => targetNameMatch c question) with
  | some c => some c
  | none => (f.filter isNumericCol).head?

def presentMask (c : Col) : List Bool :=
  match c.data with
  | .numeric vs => vs.map Option.isSome
  | .text vs => vs.map Option.isSome

/-- `df[[time_col, target_col]].dropna()` then the target values: the
target value of every row where both cells are present, in row order. -/
def pairedSeries (tc cc : Col) : List ℚ :=
  ((presentMask tc).zip (numVals cc)).filterMap (fun p => if p.1 then p.2 else none)

/-- The synthetic regression index 0..n-1 (`np.arange(len(pred_df))`). -/
def idxList (n : ℕ) : List ℚ := (List.range n).map (fun i => (i : ℚ))

def meanIdx (n : ℕ) : ℚ := qavg (idxList n)

/-- The ordinary-least-squares slope of the values against the index. -/
def slopeOf (ys : List ℚ) : ℚ :=
  (((idxList ys.length).zip ys).map
      (fun p => (p.1 - meanIdx ys.length) * (p.2 - qavg ys))).sum
    / ((idxList ys.length).map (fun x => (x - meanIdx ys.length) ^ 2)).sum

def interceptOf (ys : List ℚ) : ℚ := qavg ys - slopeOf ys * meanIdx ys.length

/-- `model.predict([[n]])`: the fitted value one step past the last row. -/
def predictedRaw (ys : List ℚ) : ℚ := interceptOf ys + slopeOf ys * (ys.length : ℚ)

def fittedList (ys : List ℚ) : List ℚ :=
  (idxList ys.length).map (fun x => interceptOf ys + slopeOf ys * x)

/-- sklearn `r2_score(y, y_pred)`: 1 - SSres/SStot, with the zero-variance
convention (1 when the residual is also zero, else 0). -/
def r2Of (ys : List ℚ) : ℚ :=
  if (ys.map (fun y => (y - qavg ys) ^ 2)).sum = 0 then
    (if ((ys.zip (fittedList ys)).map (fun p => (p.1 - p.2) ^ 2)).sum = 0 then 1 else 0)
  else
    1 - ((ys.zip (fittedList ys)).map (fun p => (p.1 - p.2) ^ 2)).sum
      / (ys.map (fun y => (y - qavg ys) ^ 2)).sum

/-- prediction.py lines 117-123: slope-sign classification. -/
def trendOfSlope (s : ℚ) : Trend3 :=
  if 0 < s then .upward else if s < 0 then .downward else .stable

inductive PredErr
  | noTimeColumn
  | noNumericColumn
  | insufficientData
  deriving DecidableEq

/-- The dictionary prediction.py returns, abstracted to the successful
payload (rounded predicted value, rounded confidence, trend tag, target
column) or the explicit failure reason. -/
inductive PredOutcome
  | ok (predictedValue confidence : ℚ) (trend : Trend3) (target : String)
  | err (e : PredErr)
  deriving DecidableEq

/-- prediction.py `predict`: time-column detection, target detection, the
3-row floor on the paired series, then the regression summary. -/
def predict (f : Frame) (question : String) : PredOutcome :=
  match detectTimeCol f with
  | none => .err .noTimeColumn
  | some tc =>
      match detectTargetCol f question with
      | none => .err .noNumericColumn
      | some cc =>
          if (pairedSeries tc cc).length < 3 then .err .insufficientData
          else
            .ok (round2 (predictedRaw (pairedSeries tc cc)))
              (round4 (r2Of (pairedSeries tc cc)))
              (trendOfSlope (slopeOf (pairedSeries tc cc))) cc.name

/-! ## main.py — the analyze pipeline around the Forecaster -/

def predictionKeywords : List String :=
  ["predict", "forecast", "next month", "next quarter", "next year", "future", "estimate"]

/-- main.py lines 156-157: the lower-cased question mentions a prediction
keyword. -/
def predictionRequested (q : String) : Bool :=
  predictionKeywords.any (fun kw => containsSub kw.data (q.data.map Char.toLower))

/-- main.py lines 155-168, step 6: run the Forecaster on the full dataset
and append its message only when `pred.get("predicted_value")` is truthy,
i.e. the forecast succeeded with a nonzero rounded value. -/
def analyzeStep6 (question : String) (fullData : Frame) (insights : List Insight) :
    List Insight :=
  if predictionRequested question then
    match predict fullData question with
    | .ok v conf t tg =>
        if v ≠ 0 then insights ++ [Insight.forecast v conf t tg] else insights
    | .err _ => insights
  else insights

/-- main.py lines 128-168: the insight list of one analyze request — steps
4-5 on the query-result table (skipped when it has no rows), then step 6 on
the full underlying dataset. -/
def analyzeInsights (question : String) (queryResult fullData : Frame) : List Insight :=
  if numRows queryResult = 0 then analyzeStep6 question fullData []
  else analyzeStep6 question fullData
    (generate_insights queryResult (compute_stats queryResult))

/-! ## Theorems about prediction.py and main.py -/

lemma idx4 : idxList 4 = [0, 1, 2, 3] := by
  norm_num [idxList, List.range_succ]

lemma slope_1040 : slopeOf [10, 20, 30, 40] = 10 := by
  have hlen : ([10, 20, 30, 40] : List ℚ).length = 4 := rfl
  rw [slopeOf, hlen, idx4]
  norm_num [meanIdx, qavg, idx4, List.zip_cons_cons]

lemma intercept_1040 : interceptOf [10, 20, 30, 40] = 10 := by
  have hlen : ([10, 20, 30, 40] : List ℚ).length = 4 := rfl
  rw [interceptOf, slope_1040, hlen]
  norm_num [meanIdx, qavg, idx4]

lemma predictedRaw_1040 : predictedRaw [10, 20, 30, 40] = 50 := by
  have hlen : ([10, 20, 30, 40] : List ℚ).length = 4 := rfl
  rw [predictedRaw, intercept_1040, slope_1040, hlen]
  norm_num

lemma r2_1040 : r2Of [10, 20, 30, 40] = 1 := by
  have hlen : ([10, 20, 30, 40] : List ℚ).length = 4 := rfl
  rw [r2Of]
  norm_num [fittedList, hlen, idx4, intercept_1040, slope_1040, qavg,
    List.zip_cons_cons]

/-- The spec's determinism table: four consecutive dates against the values
10, 20, 30, 40. -/
def fSales : Frame :=
  [⟨"date", .text [some "2021-01-01", some "2021-01-02", some "2021-01-03",
      some "2021-01-04"]⟩,
   ⟨"sales", .numeric [some 10, some 20, some 30, some 40]⟩]

lemma predict_fSales : predict fSales "predict sales" = .ok 50 1 .upward "sales" := by
  have hstruct : predict fSales "predict sales"
      = .ok (round2 (predictedRaw [10, 20, 30, 40])) (round4 (r2Of [10, 20, 30, 40]))
          (trendOfSlope (slopeOf [10, 20, 30, 40])) "sales" := rfl
  rw [hstruct, slope_1040, predictedRaw_1040, r2_1040]
  norm_num [round2, round4, round_eq, trendOfSlope]

/-- C8: the regression runs on the synthetic index: for the paired series
10, 20, 30, 40 the exact slope is 10, the value predicted at index 4 is 50,
the coefficient of determination is 1, and predict reports exactly that
with trend "upward"; the slope-sign classification is upward/downward on
strict sign and "stable" exactly at slope zero, and the prediction is by
definition the fitted line evaluated one step past the last index. -/
theorem c8_forecast_determinism :
    slopeOf [10, 20, 30, 40] = 10
    ∧ predictedRaw [10, 20, 30, 40] = 50
    ∧ r2Of [10, 20, 30, 40] = 1
    ∧ predict fSales "predict sales" = .ok 50 1 .upward "sales"
    ∧ (∀ s : ℚ, trendOfSlope s = .upward ↔ 0 < s)
    ∧ (∀ s : ℚ, trendOfSlope s = .downward ↔ s < 0)
    ∧ (∀ s : ℚ, trendOfSlope s = .stable ↔ s = 0)
    ∧ (∀ ys : List ℚ, predictedRaw ys = interceptOf ys + slopeOf ys * (ys.length : ℚ)) := by
  refine ⟨slope_1040, predictedRaw_1040, r2_1040, predict_fSales, ?_, ?_, ?_, fun ys => rfl⟩
  · intro s
    unfold trendOfSlope
    split_ifs with h1 h2
    · simp [h1]
    · simp [asymm h2]
    · simp [h1]
  · intro s
    unfold trendOfSlope
    split_ifs with h1 h2
    · simp [asymm h1]
    · simp [h2]
    · simp [h2]
  · intro s
    unfold trendOfSlope
    split_ifs with h1 h2
    · simp [ne_of_gt h1]
    · simp [ne_of_lt h2]
    · have h0 : s = 0 := le_antisymm (not_lt.mp h1) (not_lt.mp h2)
      simp [h0]

def nonMissingCount (c : Col) : ℕ := (nonMissingStrs c).length

/-- C10: whenever the first declared column has no non-missing value, its
empty 10-value sample passes the 70 percent threshold vacuously, so
detect_time_column returns that column — ahead of any later genuine date
column and of the name-keyword fallback. -/
theorem c10_all_missing_first_column_wins (c : Col) (rest : List Col)
    (h : nonMissingCount c = 0) :
    detect_time_column (c :: rest) = some c.name := by
  have hnil : nonMissingStrs c = [] := List.length_eq_zero.mp h
  have hcm : contentTimeMatch c = true := by
    unfold contentTimeMatch
    rw [hnil]
    rfl
  unfold detect_time_column detectTimeCol
  simp [List.find?, hcm]

/-- An all-missing numeric column named without any time keyword. -/
def blankCol : Col := ⟨"blank", .numeric [none, none]⟩

/-- A later genuine date column (which also name-matches the fallback). -/
def laterCols : List Col := [⟨"date", .text [some "2021-01-01", some "2021-02-01"]⟩]

/-- C10 witness: the all-missing first column is selected over the later
real date column. -/
theorem c10_witness : detect_time_column (blankCol :: laterCols) = some blankCol.name :=
  c10_all_missing_first_column_wins blankCol laterCols (by rfl)

lemma colLen_le_numRows {c : Col} {f : Frame} (hc : c ∈ f) : colLen c ≤ numRows f := by
  induction f with
  | nil => cases hc
  | cons b t ih =>
      rcases List.mem_cons.mp hc with h | h
      · subst h
        show colLen c ≤ max (colLen c) (numRows t)
        exact le_max_left _ _
      · exact le_trans (ih h) (le_max_right _ _)

lemma mem_of_detectTargetCol {f : Frame} {q : String} {c : Col}
    (h : detectTargetCol f q = some c) : c ∈ f := by
  unfold detectTargetCol at h
  cases hfind : (f.filter isNumericCol).find? (fun x => targetNameMatch x q) with
  | some x =>
      rw [hfind] at h
      injection h with hx
      subst hx
      exact List.mem_of_mem_filter (List.mem_of_find?_eq_some hfind)
  | none =>
      rw [hfind] at h
      cases hf : f.filter isNumericCol with
      | nil =>
          rw [hf] at h
          cases h
      | cons a t =>
          rw [hf] at h
          have ha : a = c := by simpa using h
          subst ha
          exact List.mem_of_mem_filter (by rw [hf]; exact List.mem_cons_self a t)

lemma pairedSeries_length_le (tc cc : Col) : (pairedSeries tc cc).length ≤ colLen cc := by
  have h1 : (pairedSeries tc cc).length ≤ ((presentMask tc).zip (numVals cc)).length :=
    List.length_filterMap_le _ _
  have h2 : ((presentMask tc).zip (numVals cc)).length ≤ (numVals cc).length := by
    rw [List.length_zip]
    exact min_le_right _ _
  have h3 : (numVals cc).length ≤ colLen cc := by
    rcases cc with ⟨nm, d⟩
    cases d <;> simp [numVals, colLen]
  exact le_trans (le_trans h1 h2) h3

lemma predict_insufficient {f : Frame} {q : String} {tc cc : Col}
    (h : numRows f < 3) (htc : detectTimeCol f = some tc)
    (hcc : detectTargetCol f q = some cc) :
    predict f q = .err .insufficientData := by
  have hlt : (pairedSeries tc cc).length < 3 :=
    lt_of_le_of_lt
      (le_trans (pairedSeries_length_le tc cc)
        (colLen_le_numRows (mem_of_detectTargetCol hcc)))
      h
  unfold predict
  simp only [htc, hcc]
  rw [if_pos hlt]

/-- C5 (amended): a table with fewer than 3 rows never yields a successful
prediction — predict always returns one of its failure results — and it
yields the "insufficient data" failure exactly on the runs where a time
column and a target column were both detected first. -/
theorem c5_few_rows_never_predict (f : Frame) (q : String) (h : numRows f < 3) :
    (∃ e, predict f q = PredOutcome.err e)
    ∧ (∀ tc cc, detectTimeCol f = some tc → detectTargetCol f q = some cc →
        predict f q = PredOutcome.err PredErr.insufficientData) := by
  constructor
  · cases htc : detectTimeCol f with
    | none =>
        refine ⟨.noTimeColumn, ?_⟩
        unfold predict
        simp only [htc]
    | some tc =>
        cases hcc : detectTargetCol f q with
        | none =>
            refine ⟨.noNumericColumn, ?_⟩
            unfold predict
            simp only [htc, hcc]
        | some cc => exact ⟨.insufficientData, predict_insufficient h htc hcc⟩
  · intro tc cc htc hcc
    exact predict_insufficient h htc hcc

/-- A two-row table with no detectable time column. -/
def fTwoRows : Frame := [⟨"name", .text [some "aa", some "bb"]⟩]

/-- C5 counterexample: a table with fewer than 3 rows whose predict result
is the "no time column" failure, not the claimed "insufficient data" one. -/
theorem c5_two_rows_other_failure :
    numRows fTwoRows < 3
    ∧ predict fTwoRows "average" = PredOutcome.err PredErr.noTimeColumn
    ∧ predict fTwoRows "average" ≠ PredOutcome.err PredErr.insufficientData := by
  refine ⟨by decide, by decide, by decide⟩

/-- A two-row table where both detections succeed. -/
def fTwoRowsTimed : Frame :=
  [⟨"d", .text [some "2021-01-01", some "2021-02-01"]⟩,
   ⟨"v", .numeric [some 1, some 2]⟩]

/-- C5 witness: with a detected time and target column and 2 rows, predict
returns the insufficient-data failure. -/
theorem c5_witness :
    predict fTwoRowsTimed "average" = PredOutcome.err PredErr.insufficientData :=
  (c5_few_rows_never_predict fTwoRowsTimed "average" (by decide)).2
    ⟨"d", .text [some "2021-01-01", some "2021-02-01"]⟩
    ⟨"v", .numeric [some 1, some 2]⟩ (by rfl) (by rfl)

/-- A one-row text-only query result (its insight list is just the row
count). -/
def fQueryText : Frame := [⟨"label", .text [some "x"]⟩]

/-- A full dataset with three rows and no detectable time column. -/
def fNoTimeFull : Frame := [⟨"name", .text [some "aa", some "bb", some "cc"]⟩]

/-- C6 counterexample: the question asks for a prediction, yet because the
Forecaster fails on the full dataset no message is appended — the insight
list stays exactly the query-result insights, ending in the row-count
insight rather than a forecast sentence. -/
theorem c6_requested_but_not_appended :
    predictionRequested "predict sales" = true
    ∧ analyzeInsights "predict sales" fQueryText fNoTimeFull = [Insight.rowCount 1 1] := by
  refine ⟨by decide, by decide⟩

/-- C6 (amended): when the question mentions a prediction keyword the
Forecaster runs on the full dataset, and whenever it succeeds there with a
nonzero rounded predicted value, its message is appended to the end of the
insight list built from the query result. -/
theorem c6_forecast_appended (q : String) (qr full : Frame) (v conf : ℚ) (t : Trend3)
    (tg : String) (hreq : predictionRequested q = true)
    (hok : predict full q = PredOutcome.ok v conf t tg) (hv : v ≠ 0) :
    analyzeInsights q qr full
      = (if numRows qr = 0 then [] else generate_insights qr (compute_stats qr))
        ++ [Insight.forecast v conf t tg]
    ∧ (analyzeInsights q qr full).getLast? = some (Insight.forecast v conf t tg) := by
  have hstep : ∀ ins, analyzeStep6 q full ins = ins ++ [Insight.forecast v conf t tg] := by
    intro ins
    unfold analyzeStep6
    simp only [hreq, hok, if_true]
    rw [if_pos hv]
  have hins : analyzeInsights q qr full
      = (if numRows qr = 0 then [] else generate_insights qr (compute_stats qr))
        ++ [Insight.forecast v conf t tg] := by
    unfold analyzeInsights
    by_cases hz : numRows qr = 0
    · rw [if_pos hz, if_pos hz, hstep]
    · rw [if_neg hz, if_neg hz, hstep]
  refine ⟨hins, ?_⟩
  rw [hins]
  simp

/-- C6 witness: a forecast-implying question, an empty query result and the
deterministic sales dataset — the forecast message is the appended tail. -/
theorem c6_witness :
    analyzeInsights "predict sales" [] fSales
      = (if numRows [] = 0 then []
          else generate_insights [] (compute_stats []))
        ++ [Insight.forecast 50 1 Trend3.upward "sales"]
    ∧ (analyzeInsights "predict sales" [] fSales).getLast?
        = some (Insight.forecast 50 1 Trend3.upward "sales") :=
  c6_forecast_appended "predict sales" [] fSales 50 1 Trend3.upward "sales"
    (by decide) predict_fSales (by norm_num)
